import Mathlib

/-!
User detail controller (`plugins-ui/user-management/scripts/js/controllers/user-detail.js`)

A shallow embedding of the AngularJS controller that drives the user detail
view: the three `$watch` listeners registered at start-up, `loadUser`,
`unloadUser` and `saveUser`.

Modelling conventions.

* A JavaScript object is a structure whose fields are `Option`s; `none` is
  `undefined`. One structure, `Record`, stands for every plain object the
  controller touches (the loaded user, the `newUser` shell, the outgoing record
  and the command objects handed to `User.update`), because in the source they
  are all untyped objects and the whitelist copy moves values between them.
* Role ids and user ids are natural numbers. An object used as a map from role
  ids to booleans (`user.roles`, `newUser.roles`) is an association list kept
  in ascending key order, which is the order in which `for (var i in obj)`
  enumerates integer keys.
* The injected collaborators (`sha`, `User`, `UserDetailLoader`,
  `RoleListLoader`) are fields of `Services`. `User.save` and `User.update`
  are taken to return normally; the loader may throw.
* Every operation returns an `Outcome`: the scope it leaves behind, the
  externally visible effects it emitted, in order, and the exception that
  escaped, if any.
-/

namespace UserDetail

/-- Element of `$scope.roleList` and of `user.roleList`: an object with an `Id`. -/
structure Role where
  Id : Nat
deriving DecidableEq, Repr

/-- Object used as a map from role id to boolean (`user.roles`), in the
enumeration order of `for ... in`: ascending keys. -/
abbrev RoleMap := List (Nat × Bool)

namespace RoleMap

/-- Assignment `m[k] = v`: overwrites the entry for `k` or creates it at its
place in the enumeration order. -/
def set : RoleMap → Nat → Bool → RoleMap
  | [], k, v => [(k, v)]
  | (k', v') :: rest, k, v =>
    if k < k' then (k, v) :: (k', v') :: rest
    else if k = k' then (k, v) :: rest
    else (k', v') :: set rest k v

/-- Property read `m[k]`; `none` when the object has no such key. -/
def get (m : RoleMap) (k : Nat) : Option Bool := m.lookup k

/-- Keys of the object, in enumeration order. -/
def keys (m : RoleMap) : List Nat := m.map Prod.fst

end RoleMap

/-- Plain JavaScript object with the properties the controller reads or
writes. `none` is `undefined`. -/
structure Record where
  Id : Option Nat := none
  FirstName : Option String := none
  LastName : Option String := none
  Name : Option String := none
  Password : Option String := none
  EMail : Option String := none
  PhoneNumber : Option String := none
  Address : Option String := none
  Action : Option String := none
  Action2 : Option Nat := none
  NewPassword : Option String := none
  roleList : Option (List Role) := none
  roles : Option RoleMap := none
deriving DecidableEq, Repr

/-- The `$scope` of the controller, together with the parent's
`selectedUserId` it watches (`none` is `null`, `some 0` the NEW sentinel). -/
structure Scope where
  selectedUserId : Option Nat := none
  user : Option Record := none
  newUser : Option Record := none
  enabled : Bool := false
  roleList : List Role := []
deriving DecidableEq, Repr

/-- Externally visible actions of the controller. -/
inductive Effect where
  /-- Call `$(selector).tab('show')`. -/
  | tabShow (selector : String)
  /-- Call `UserDetailLoader(userId)`. -/
  | load (userId : Nat)
  /-- Call `User.save(user)`. -/
  | save (user : Record)
  /-- Call `User.update(payload)`. -/
  | update (payload : Record)
  /-- Call `$scope.$parent.loadUsers()`. -/
  | loadUsers
deriving DecidableEq, Repr

/-- Exceptions that can escape an operation. -/
inductive Error where
  /-- Property read on `undefined`. -/
  | typeError
  /-- Exception thrown by `UserDetailLoader`. -/
  | loadError
deriving DecidableEq, Repr

/-- Result of running an operation on a scope. -/
structure Outcome where
  scope : Scope
  effects : List Effect := []
  error : Option Error := none
deriving DecidableEq, Repr

/-- The injected collaborators. -/
structure Services where
  /-- The digest `(new sha(p, 'ASCII')).getHash('SHA-512', 'HEX')`. -/
  sha : String → String
  /-- The object returned by `User.save(user)`. -/
  save : Record → Record
  /-- The record returned by `UserDetailLoader(userId)`; `none` when it throws. -/
  UserDetailLoader : Nat → Option Record
  /-- The catalog returned by `RoleListLoader()`. -/
  RoleListLoader : List Role

/-- Scope left by the controller's start-up function (lines 10-13), the
parent's selection being `null`. -/
def initialScope (env : Services) : Scope :=
  { selectedUserId := none, user := none, newUser := none, enabled := false,
    roleList := env.RoleListLoader }

/-- Lines 17-20: `{roles: {}}` with every catalog id set to `false`. -/
def newUserShell (roleList : List Role) : Record :=
  { roles := some (roleList.foldl (fun roles r => RoleMap.set roles r.Id false) []) }

/-- Lines 55-59. -/
def loadUser (env : Services) (s : Scope) (userId : Nat) : Outcome :=
  match env.UserDetailLoader userId with
  | none => { scope := s, effects := [.load userId], error := some .loadError }
  | some loaded =>
    { scope := { s with user := some loaded, enabled := true },
      effects := [.load userId, .tabShow "#overview-button"] }

/-- Lines 15-28: the listener on `selectedUserId`. -/
def watchSelectedUserId (env : Services) (s : Scope) (selectedUserId : Option Nat) : Outcome :=
  if selectedUserId = some 0 then
    { scope := { s with newUser := some (newUserShell s.roleList), enabled := true },
      effects := [.tabShow "#profile-button", .tabShow "#edit-profile-button"] }
  else
    match selectedUserId with
    | some userId =>
      let o := loadUser env s userId
      { o with effects := .tabShow "#overview-button" :: o.effects }
    | none => { scope := s }

/-- Lines 34-40: the inner loop, leaving at the first assigned role with the
catalog id. -/
def status (assigned : List Role) (id : Nat) : Bool :=
  match assigned with
  | [] => false
  | a :: rest => if a.Id = id then true else status rest id

/-- Lines 31-44: the rebuilt `user.roles`. -/
def reconcileRoles (roleList : List Role) (user : Record) : RoleMap :=
  roleList.foldl
    (fun roles r =>
      let roles := RoleMap.set roles r.Id false
      if status (user.roleList.getD []) r.Id = true then RoleMap.set roles r.Id true
      else roles)
    []

/-- Lines 29-47: the listener on `user`. -/
def watchUser (s : Scope) (user : Option Record) : Scope :=
  match user with
  | none => s
  | some user =>
    { s with user := some { user with roles := some (reconcileRoles s.roleList user) } }

/-- Lines 48-52: the listener on `roleList`. -/
def watchRoleList (s : Scope) (roleList : Option (List Role)) : Scope :=
  match roleList with
  | none => s
  | some roleList => { s with roleList := roleList }

/-- Lines 61-65. -/
def unloadUser (s : Scope) : Scope :=
  { s with selectedUserId := none, user := none, enabled := false }

/-- Names in the `fields` array of line 69. -/
inductive Field where
  | Id | FirstName | LastName | Name | Password | EMail | PhoneNumber | Address
deriving DecidableEq, Repr

/-- Line 69. -/
def fields : List Field :=
  [.Id, .FirstName, .LastName, .Name, .Password, .EMail, .PhoneNumber, .Address]

/-- Line 71 for one field: `user[f] = src[f]`. -/
def copyField (src : Record) (user : Record) : Field → Record
  | .Id => { user with Id := src.Id }
  | .FirstName => { user with FirstName := src.FirstName }
  | .LastName => { user with LastName := src.LastName }
  | .Name => { user with Name := src.Name }
  | .Password => { user with Password := src.Password }
  | .EMail => { user with EMail := src.EMail }
  | .PhoneNumber => { user with PhoneNumber := src.PhoneNumber }
  | .Address => { user with Address := src.Address }

/-- Lines 68-72: the copy loop reads `$scope.user` at every turn; `none` when
that read is on `undefined`. -/
def copyFields (s : Scope) : Option Record :=
  fields.foldlM (fun user f => s.user.map (fun src => copyField src user f)) {}

/-- Lines 73-75. -/
def hashPassword (env : Services) (user : Record) : Record :=
  match user.Password with
  | some p => { user with Password := some (env.sha p) }
  | none => user

/-- Lines 77-82: the outgoing record after the call and the call made. -/
def persist (env : Services) (user : Record) : Record × List Effect :=
  match user.Id with
  | none => ({ user with Id := (env.save user).Id }, [.save user])
  | some _ => (user, [.update user])

/-- Lines 84-86. -/
def passwordCommand (user : Record) : List Effect :=
  match user.Password with
  | some d => [.update { Id := user.Id, Action := some "Password", NewPassword := some d }]
  | none => []

/-- Lines 89-93 and 95-99: one loop over a role map. -/
def grantRoles (Id : Option Nat) (roles : RoleMap) : List Effect :=
  match roles with
  | [] => []
  | (i, v) :: rest =>
    if v = true then
      .update { Id := Id, Action := some "Role", Action2 := some i } :: grantRoles Id rest
    else grantRoles Id rest

/-- Lines 88-100: `none` when `$scope.newUser.roles` is read on `undefined`. -/
def roleCommands (s : Scope) (Id : Option Nat) : Option (List Effect) :=
  match s.user with
  | some user => some (grantRoles Id (user.roles.getD []))
  | none =>
    match s.newUser with
    | some newUser => some (grantRoles Id (newUser.roles.getD []))
    | none => none

/-- Lines 67-104. -/
def saveUser (env : Services) (s : Scope) : Outcome :=
  match copyFields s with
  | none => { scope := s, effects := [], error := some .typeError }
  | some user =>
    let user := hashPassword env user
    let stored := persist env user
    let sent := stored.2 ++ passwordCommand stored.1
    match roleCommands s stored.1.Id with
    | none => { scope := s, effects := sent, error := some .typeError }
    | some grants =>
      { scope := unloadUser s, effects := sent ++ grants ++ [.loadUsers] }

/-- Lines 68-75 on a defined `$scope.user`: the whitelist copy with the
password hashed. -/
def outgoing (env : Services) (src : Record) : Record :=
  hashPassword env (fields.foldl (copyField src) {})

/-- Argument of a call to `User.save` or `User.update`. -/
def payload : Effect → Option Record
  | .save user => some user
  | .update p => some p
  | _ => none

/-- Calls to the `User` store. -/
def isStoreCall (e : Effect) : Bool := (payload e).isSome

/-- Create call: `User.save(user)`. -/
def isCreate : Effect → Bool
  | .save _ => true
  | _ => false

/-- Profile update: `User.update` with an object that has no `Action`. -/
def isProfileUpdate : Effect → Bool
  | .update p => p.Action.isNone
  | _ => false

/-- Password-change command: `User.update` with `Action: 'Password'`. -/
def isPasswordCommand : Effect → Bool
  | .update p => p.Action = some "Password"
  | _ => false

/-- Role-grant command: `User.update` with `Action: 'Role'`. -/
def isRoleGrant : Effect → Bool
  | .update p => p.Action = some "Role"
  | _ => false

/-- The role-grant command `{Id: Id, Action: 'Role', Action2: i}`. -/
def roleGrant (Id : Option Nat) (i : Nat) : Effect :=
  .update { Id := Id, Action := some "Role", Action2 := some i }

/-- Operations on the session, as the view and the parent trigger them. -/
inductive Op where
  /-- The parent assigns `selectedUserId` (`none` is `null`, `some 0` NEW). -/
  | select (selectedUserId : Option Nat)
  /-- The view calls `loadUser(userId)`. -/
  | load (userId : Nat)
  /-- The view calls `unloadUser()`. -/
  | unload
  /-- The view calls `saveUser()`. -/
  | save
  /-- A new catalog is assigned to `roleList`. -/
  | refresh (roleList : List Role)
deriving DecidableEq, Repr

/-- Digest after a load: a successful load assigned a fresh object to `user`,
so the listener on `user` runs once on it. -/
def afterLoad (o : Outcome) : Scope :=
  match o.error with
  | none => watchUser o.scope o.scope.user
  | some _ => o.scope

/-- One operation followed by the listeners it triggers. Assigning `null` or
`undefined` runs listeners that do nothing (lines 24 and 30). -/
def step (env : Services) (s : Scope) : Op → Scope
  | .select none => (watchSelectedUserId env { s with selectedUserId := none } none).scope
  | .select (some 0) =>
    (watchSelectedUserId env { s with selectedUserId := some 0 } (some 0)).scope
  | .select (some (n + 1)) =>
    afterLoad (watchSelectedUserId env { s with selectedUserId := some (n + 1) } (some (n + 1)))
  | .load userId => afterLoad (loadUser env s userId)
  | .unload => unloadUser s
  | .save => (saveUser env s).scope
  | .refresh roleList => watchRoleList { s with roleList := roleList } (some roleList)

/-- States the session can be in: the start-up scope and whatever a sequence
of operations leads to. -/
inductive Reachable (env : Services) : Scope → Prop where
  | start : Reachable env (initialScope env)
  | next (s : Scope) (op : Op) : Reachable env s → Reachable env (step env s op)

/-- Strictly ascending keys: the shape of an object's integer keys under
`for ... in`, one entry per key. -/
def RoleMap.WellFormed (m : RoleMap) : Prop := (RoleMap.keys m).Pairwise (fun a b => a < b)

/-! ## Concrete sessions -/

/-- Collaborators for the worked sessions: the catalog is `[{Id: 1}, {Id: 2}]`,
user 7 exists and holds role 2, `User.save` answers `{Id: 42}`. -/
def exampleServices : Services where
  sha := fun p => "sha512:" ++ p
  save := fun _ => { Id := some 42 }
  UserDetailLoader := fun userId =>
    if userId = 7 then some { Id := some 7, roleList := some [⟨2⟩] } else none
  RoleListLoader := [⟨1⟩, ⟨2⟩]

/-- User 7 after loading, reconciliation and typing the password "secret". -/
def editRecord : Record :=
  { Id := some 7, Password := some "secret", roleList := some [⟨2⟩],
    roles := some [(1, false), (2, true)] }

/-- Session editing user 7. -/
def editSession : Scope :=
  { selectedUserId := some 7, user := some editRecord, enabled := true,
    roleList := [⟨1⟩, ⟨2⟩] }

/-- Record without an id held in `user`, first name "A", role 1 checked. -/
def freshRecord : Record :=
  { FirstName := some "A", roles := some [(1, true), (2, false)] }

/-- Session whose `user` holds a record without an id. -/
def freshSession : Scope :=
  { selectedUserId := some 0, user := some freshRecord, enabled := true,
    roleList := [⟨1⟩, ⟨2⟩] }

/-- Record without an id held in `user`, with the password "pw" and both
roles checked. -/
def freshRecordWithPassword : Record :=
  { Name := some "B", Password := some "pw", roles := some [(1, true), (2, true)] }

/-- Session whose `user` holds `freshRecordWithPassword`. -/
def freshSessionWithPassword : Scope :=
  { selectedUserId := some 0, user := some freshRecordWithPassword, enabled := true,
    roleList := [⟨1⟩, ⟨2⟩] }

/-- Session right after the NEW sentinel was selected at start-up. -/
def newSession : Scope :=
  step exampleServices (initialScope exampleServices) (.select (some 0))

/-- The same session after role 1 was checked and the first name "A" typed
into the `newUser` shell. -/
def newSessionEdited : Scope :=
  { selectedUserId := some 0, user := none,
    newUser := some { FirstName := some "A", roles := some [(1, true), (2, false)] },
    enabled := true, roleList := [⟨1⟩, ⟨2⟩] }

/-- Session in which user 7 was selected after the NEW sentinel. -/
def newThenEditSession : Scope :=
  step exampleServices newSession (.select (some 7))

/-! ## Role maps -/

theorem RoleMap.lookup_cons (k : Nat) (v : Bool) (rest : RoleMap) (j : Nat) :
    List.lookup j ((k, v) :: rest) = if j = k then some v else List.lookup j rest := by
  by_cases h : j = k
  · subst h
    simp [List.lookup]
  · have hb : (j == k) = false := by simpa using h
    simp [List.lookup, hb, h]

theorem RoleMap.lookup_set (m : RoleMap) (k : Nat) (v : Bool) (j : Nat) :
    (RoleMap.set m k v).lookup j = if j = k then some v else m.lookup j := by
  induction m with
  | nil => simp [RoleMap.set, RoleMap.lookup_cons]
  | cons e rest ih =>
    obtain ⟨k', v'⟩ := e
    unfold RoleMap.set
    by_cases h1 : k < k'
    · simp [h1, RoleMap.lookup_cons]
    · by_cases h2 : k = k'
      · subst h2
        by_cases h : j = k
        · simp [RoleMap.lookup_cons, h]
        · simp [RoleMap.lookup_cons, h]
      · by_cases h : j = k
        · subst h
          simp [h1, h2, RoleMap.lookup_cons, ih]
        · by_cases h3 : j = k'
          · subst h3
            simp [h1, h2, RoleMap.lookup_cons, h]
          · simp [h1, h2, RoleMap.lookup_cons, h3, h, ih]

theorem RoleMap.mem_keys_iff (m : RoleMap) (j : Nat) :
    j ∈ RoleMap.keys m ↔ ∃ v, m.lookup j = some v := by
  induction m with
  | nil => simp [RoleMap.keys, List.lookup]
  | cons e rest ih =>
    obtain ⟨k', v'⟩ := e
    have hk : RoleMap.keys ((k', v') :: rest) = k' :: RoleMap.keys rest := rfl
    rw [hk, List.mem_cons, ih, RoleMap.lookup_cons]
    by_cases h : j = k'
    · simp [h]
    · simp [h]

theorem RoleMap.mem_keys_set (m : RoleMap) (k : Nat) (v : Bool) (j : Nat) :
    j ∈ RoleMap.keys (RoleMap.set m k v) ↔ j = k ∨ j ∈ RoleMap.keys m := by
  rw [RoleMap.mem_keys_iff, RoleMap.mem_keys_iff, RoleMap.lookup_set]
  by_cases h : j = k
  · simp [h]
  · simp [h]

theorem RoleMap.wellFormed_set (m : RoleMap) (k : Nat) (v : Bool)
    (hm : RoleMap.WellFormed m) : RoleMap.WellFormed (RoleMap.set m k v) := by
  induction m with
  | nil => simp [RoleMap.set, RoleMap.WellFormed, RoleMap.keys]
  | cons e rest ih =>
    obtain ⟨k', v'⟩ := e
    have hm' : (∀ a ∈ RoleMap.keys rest, k' < a) ∧ RoleMap.WellFormed rest := by
      simpa [RoleMap.WellFormed, RoleMap.keys] using hm
    unfold RoleMap.set
    by_cases h1 : k < k'
    · simp only [h1, if_true]
      have : RoleMap.keys ((k, v) :: (k', v') :: rest) = k :: RoleMap.keys ((k', v') :: rest) := rfl
      unfold RoleMap.WellFormed
      rw [this, List.pairwise_cons]
      refine ⟨?_, hm⟩
      intro a ha
      have ha' : a = k' ∨ a ∈ RoleMap.keys rest := by
        simpa [RoleMap.keys] using ha
      rcases ha' with rfl | ha'
      · exact h1
      · exact lt_trans h1 (hm'.1 a ha')
    · by_cases h2 : k = k'
      · subst h2
        simp only [lt_irrefl, if_false, if_true]
        exact hm
      · simp only [h1, h2, if_false]
        have : RoleMap.keys ((k', v') :: RoleMap.set rest k v)
            = k' :: RoleMap.keys (RoleMap.set rest k v) := rfl
        unfold RoleMap.WellFormed
        rw [this, List.pairwise_cons]
        refine ⟨?_, ih hm'.2⟩
        intro a ha
        rcases (RoleMap.mem_keys_set rest k v a).1 ha with rfl | ha'
        · omega
        · exact hm'.1 a ha'

/-- A loop over the catalog that assigns `val r.Id` to key `r.Id` at every
turn leaves, at key `j`, `val j` when some catalog role has id `j`, and the
initial entry otherwise. -/
theorem lookup_foldl (f : RoleMap → Role → RoleMap) (val : Nat → Bool)
    (hf : ∀ acc r j, (f acc r).lookup j = if j = r.Id then some (val r.Id) else acc.lookup j)
    (C : List Role) (acc : RoleMap) (j : Nat) :
    ((∃ r ∈ C, r.Id = j) → (C.foldl f acc).lookup j = some (val j)) ∧
    ((¬ ∃ r ∈ C, r.Id = j) → (C.foldl f acc).lookup j = acc.lookup j) := by
  induction C generalizing acc with
  | nil => simp
  | cons r rest ih =>
    have ih1 := (ih (f acc r)).1
    have ih2 := (ih (f acc r)).2
    simp only [List.foldl_cons]
    constructor
    · intro hex
      by_cases hrest : ∃ r' ∈ rest, r'.Id = j
      · exact ih1 hrest
      · have hr : r.Id = j := by
          obtain ⟨r', hmem, hid⟩ := hex
          rcases List.mem_cons.1 hmem with rfl | hmem'
          · exact hid
          · exact absurd ⟨r', hmem', hid⟩ hrest
        rw [ih2 hrest, hf, if_pos hr.symm, hr]
    · intro hno
      have hrest : ¬ ∃ r' ∈ rest, r'.Id = j := by
        rintro ⟨r', hmem, hid⟩
        exact hno ⟨r', List.mem_cons_of_mem _ hmem, hid⟩
      have hr : ¬ j = r.Id := by
        intro h
        exact hno ⟨r, List.mem_cons_self _ _, h.symm⟩
      rw [ih2 hrest, hf, if_neg hr]

theorem wellFormed_foldl (f : RoleMap → Role → RoleMap)
    (hf : ∀ acc r, RoleMap.WellFormed acc → RoleMap.WellFormed (f acc r))
    (C : List Role) (acc : RoleMap) (hacc : RoleMap.WellFormed acc) :
    RoleMap.WellFormed (C.foldl f acc) := by
  induction C generalizing acc with
  | nil => simpa using hacc
  | cons r rest ih => exact ih (f acc r) (hf acc r hacc)

theorem wellFormed_nil : RoleMap.WellFormed [] := by
  simp [RoleMap.WellFormed, RoleMap.keys]

theorem status_iff (assigned : List Role) (id : Nat) :
    status assigned id = true ↔ ∃ a ∈ assigned, a.Id = id := by
  induction assigned with
  | nil => simp [status]
  | cons a rest ih =>
    unfold status
    by_cases h : a.Id = id
    · simp [h]
    · simp [h, ih]

/-- Entry of the rebuilt `user.roles` at key `j`. -/
theorem lookup_reconcileRoles (C : List Role) (user : Record) (j : Nat) :
    ((∃ r ∈ C, r.Id = j) →
      (reconcileRoles C user).lookup j = some (status (user.roleList.getD []) j)) ∧
    ((¬ ∃ r ∈ C, r.Id = j) → (reconcileRoles C user).lookup j = none) := by
  have h := lookup_foldl
    (fun roles r =>
      let roles := RoleMap.set roles r.Id false
      if status (user.roleList.getD []) r.Id = true then RoleMap.set roles r.Id true
      else roles)
    (fun id => status (user.roleList.getD []) id)
    (by
      intro acc r j
      by_cases hs : status (user.roleList.getD []) r.Id = true
      · by_cases hj : j = r.Id
        · simp [hs, RoleMap.lookup_set, hj]
        · simp [hs, RoleMap.lookup_set, hj]
      · have hs' : status (user.roleList.getD []) r.Id = false := by simpa using hs
        by_cases hj : j = r.Id
        · simp [hs', RoleMap.lookup_set, hj]
        · simp [hs', RoleMap.lookup_set, hj])
    C [] j
  simpa [reconcileRoles] using h

theorem wellFormed_reconcileRoles (C : List Role) (user : Record) :
    RoleMap.WellFormed (reconcileRoles C user) := by
  unfold reconcileRoles
  apply wellFormed_foldl _ _ C [] wellFormed_nil
  intro acc r hacc
  by_cases hs : status (user.roleList.getD []) r.Id = true
  · simp only [hs, if_true]
    exact RoleMap.wellFormed_set _ _ _ (RoleMap.wellFormed_set _ _ _ hacc)
  · simp only [hs, if_false]
    exact RoleMap.wellFormed_set _ _ _ hacc

/-- Entry of the all-false map of the `newUser` shell at key `j`. -/
theorem lookup_newUserShell (C : List Role) (j : Nat) :
    ((∃ r ∈ C, r.Id = j) →
      (C.foldl (fun roles r => RoleMap.set roles r.Id false) []).lookup j = some false) ∧
    ((¬ ∃ r ∈ C, r.Id = j) →
      (C.foldl (fun roles r => RoleMap.set roles r.Id false) []).lookup j = none) := by
  have h := lookup_foldl (fun roles r => RoleMap.set roles r.Id false) (fun _ => false)
    (by intro acc r j; exact RoleMap.lookup_set acc r.Id false j) C [] j
  simpa using h

theorem mem_keys_of_lookup (C : List Role) (m : RoleMap)
    (h1 : ∀ j, (∃ r ∈ C, r.Id = j) → ∃ v, m.lookup j = some v)
    (h2 : ∀ j, (¬ ∃ r ∈ C, r.Id = j) → m.lookup j = none) (id : Nat) :
    id ∈ RoleMap.keys m ↔ ∃ r ∈ C, r.Id = id := by
  rw [RoleMap.mem_keys_iff]
  by_cases h : ∃ r ∈ C, r.Id = id
  · simp only [h, iff_true]
    exact h1 id h
  · simp only [h, iff_false]
    rw [h2 id h]
    simp

/-- C1: role-map reconciliation. For every catalog (the scope's `roleList`)
and every defined user record `U`, the listener on `user` leaves `U` with a
`roles` map that has one entry per catalog id and no other key, whose value at
an id is `true` exactly when some element of `U.roleList` has that id and
`false` otherwise; the map `U.roles` held before does not influence the
result. -/
theorem watchUser_roles_exact (s : Scope) (U : Record) :
    ∃ m : RoleMap,
      (watchUser s (some U)).user = some { U with roles := some m } ∧
      RoleMap.WellFormed m ∧
      (∀ id, id ∈ RoleMap.keys m ↔ ∃ r ∈ s.roleList, r.Id = id) ∧
      (∀ id ∈ RoleMap.keys m,
        (RoleMap.get m id = some true ↔ ∃ a ∈ U.roleList.getD [], a.Id = id) ∧
        (RoleMap.get m id = some false ↔ ¬ ∃ a ∈ U.roleList.getD [], a.Id = id)) ∧
      (∀ old, watchUser s (some { U with roles := old }) = watchUser s (some U)) := by
  have hkeys : ∀ id, id ∈ RoleMap.keys (reconcileRoles s.roleList U) ↔
      ∃ r ∈ s.roleList, r.Id = id :=
    mem_keys_of_lookup s.roleList _
      (fun j hj => ⟨_, (lookup_reconcileRoles s.roleList U j).1 hj⟩)
      (fun j hj => (lookup_reconcileRoles s.roleList U j).2 hj)
  refine ⟨reconcileRoles s.roleList U, rfl, wellFormed_reconcileRoles _ _, hkeys, ?_, ?_⟩
  · intro id hid
    have hl := (lookup_reconcileRoles s.roleList U id).1 ((hkeys id).1 hid)
    unfold RoleMap.get
    rw [hl, ← status_iff]
    cases status (U.roleList.getD []) id <;> simp
  · intro old
    rfl

theorem watchSelectedUserId_zero (env : Services) (s : Scope) :
    watchSelectedUserId env s (some 0) =
      { scope := { s with newUser := some (newUserShell s.roleList), enabled := true },
        effects := [.tabShow "#profile-button", .tabShow "#edit-profile-button"] } := by
  simp [watchSelectedUserId]

/-- C9: selecting the NEW sentinel. For every prior scope and every catalog
(the scope's `roleList`), the listener on `selectedUserId` run with `0` leaves
a `newUser` that is `{roles: m}` where `m` has one entry per catalog id, no
other key and every value `false`, sets `enabled` to `true` and does not
throw; the prior `selectedUserId`, `user`, `newUser` and `enabled` do not
influence that `newUser` or that `enabled`. -/
theorem watchSelectedUserId_new (env : Services) (s : Scope) :
    ∃ m : RoleMap,
      (watchSelectedUserId env s (some 0)).scope.newUser = some { roles := some m } ∧
      RoleMap.WellFormed m ∧
      (∀ id, id ∈ RoleMap.keys m ↔ ∃ r ∈ s.roleList, r.Id = id) ∧
      (∀ id ∈ RoleMap.keys m, RoleMap.get m id = some false) ∧
      (watchSelectedUserId env s (some 0)).scope.enabled = true ∧
      (watchSelectedUserId env s (some 0)).error = none ∧
      (∀ (sel : Option Nat) (user newUser : Option Record) (enabled : Bool),
        (watchSelectedUserId env
          { selectedUserId := sel, user := user, newUser := newUser, enabled := enabled,
            roleList := s.roleList } (some 0)).scope.newUser
          = (watchSelectedUserId env s (some 0)).scope.newUser ∧
        (watchSelectedUserId env
          { selectedUserId := sel, user := user, newUser := newUser, enabled := enabled,
            roleList := s.roleList } (some 0)).scope.enabled = true) := by
  have hkeys : ∀ id,
      id ∈ RoleMap.keys (s.roleList.foldl (fun roles r => RoleMap.set roles r.Id false) []) ↔
      ∃ r ∈ s.roleList, r.Id = id :=
    mem_keys_of_lookup s.roleList _
      (fun j hj => ⟨_, (lookup_newUserShell s.roleList j).1 hj⟩)
      (fun j hj => (lookup_newUserShell s.roleList j).2 hj)
  refine ⟨s.roleList.foldl (fun roles r => RoleMap.set roles r.Id false) [], ?_, ?_, hkeys,
    ?_, ?_, ?_, ?_⟩
  · rw [watchSelectedUserId_zero]
    rfl
  · apply wellFormed_foldl _ _ s.roleList [] wellFormed_nil
    intro acc r hacc
    exact RoleMap.wellFormed_set _ _ _ hacc
  · intro id hid
    exact (lookup_newUserShell s.roleList id).1 ((hkeys id).1 hid)
  · rw [watchSelectedUserId_zero]
  · rw [watchSelectedUserId_zero]
  · intro sel user newUser enabled
    rw [watchSelectedUserId_zero, watchSelectedUserId_zero]
    exact ⟨rfl, rfl⟩

/-! ## `saveUser` -/

theorem copyFields_of_user (s : Scope) (u : Record) (hu : s.user = some u) :
    copyFields s = some (fields.foldl (copyField u) {}) := by
  simp [copyFields, fields, List.foldlM, hu]

theorem copyFields_of_no_user (s : Scope) (hu : s.user = none) : copyFields s = none := by
  simp [copyFields, fields, List.foldlM, hu]

theorem outgoing_eq (env : Services) (u : Record) :
    outgoing env u =
      { Id := u.Id, FirstName := u.FirstName, LastName := u.LastName, Name := u.Name,
        Password := u.Password.map env.sha, EMail := u.EMail, PhoneNumber := u.PhoneNumber,
        Address := u.Address } := by
  cases hp : u.Password <;> simp [outgoing, fields, copyField, hashPassword, hp]

theorem grantRoles_eq (Id : Option Nat) (m : RoleMap) :
    grantRoles Id m = (m.filter (fun e => e.2)).map (fun e => roleGrant Id e.1) := by
  induction m with
  | nil => rfl
  | cons e rest ih =>
    obtain ⟨i, v⟩ := e
    cases v <;> simp [grantRoles, roleGrant, ih]

theorem saveUser_of_user (env : Services) (s : Scope) (u : Record) (hu : s.user = some u) :
    saveUser env s =
      { scope := unloadUser s,
        effects := (persist env (outgoing env u)).2 ++
          (passwordCommand (persist env (outgoing env u)).1 ++
            (grantRoles (persist env (outgoing env u)).1.Id (u.roles.getD []) ++ [.loadUsers])),
        error := none } := by
  simp [saveUser, copyFields_of_user s u hu, roleCommands, hu, outgoing]

theorem saveUser_of_no_user (env : Services) (s : Scope) (hu : s.user = none) :
    saveUser env s = { scope := s, effects := [], error := some .typeError } := by
  simp [saveUser, copyFields_of_no_user s hu]

/-- The password-change command `{Id: Id, Action: 'Password', NewPassword: d}`. -/
theorem passwordCommand_eq (user : Record) :
    passwordCommand user =
      match user.Password with
      | some d => [.update { Id := user.Id, Action := some "Password", NewPassword := some d }]
      | none => [] := rfl

/-- Effects of a save of a record that has an id. -/
theorem saveUser_effects_existing (env : Services) (s : Scope) (u : Record) (k : Nat)
    (hu : s.user = some u) (hk : u.Id = some k) :
    (saveUser env s).effects =
      .update (outgoing env u) ::
        (passwordCommand (outgoing env u) ++
          (grantRoles (some k) (u.roles.getD []) ++ [.loadUsers])) := by
  have hid : (outgoing env u).Id = some k := by rw [outgoing_eq]; exact hk
  rw [saveUser_of_user env s u hu]
  simp [persist, hid]

/-- Effects of a save of a record that has no id. -/
theorem saveUser_effects_fresh (env : Services) (s : Scope) (u : Record)
    (hu : s.user = some u) (hid : u.Id = none) :
    (saveUser env s).effects =
      .save (outgoing env u) ::
        (passwordCommand { outgoing env u with Id := (env.save (outgoing env u)).Id } ++
          (grantRoles (env.save (outgoing env u)).Id (u.roles.getD []) ++ [.loadUsers])) := by
  have hid' : (outgoing env u).Id = none := by rw [outgoing_eq]; exact hid
  rw [saveUser_of_user env s u hu]
  simp [persist, hid']

theorem filter_grantRoles_isRoleGrant (Id : Option Nat) (m : RoleMap) :
    (grantRoles Id m).filter isRoleGrant = grantRoles Id m := by
  induction m with
  | nil => rfl
  | cons e rest ih =>
    obtain ⟨i, v⟩ := e
    cases v <;> simp [grantRoles, isRoleGrant, ih]

theorem filter_grantRoles_isProfileUpdate (Id : Option Nat) (m : RoleMap) :
    (grantRoles Id m).filter isProfileUpdate = [] := by
  induction m with
  | nil => rfl
  | cons e rest ih =>
    obtain ⟨i, v⟩ := e
    cases v <;> simp [grantRoles, isProfileUpdate, ih]

theorem filter_grantRoles_isPasswordCommand (Id : Option Nat) (m : RoleMap) :
    (grantRoles Id m).filter isPasswordCommand = [] := by
  induction m with
  | nil => rfl
  | cons e rest ih =>
    obtain ⟨i, v⟩ := e
    cases v <;> simp [grantRoles, isPasswordCommand, ih]

theorem filter_grantRoles_isCreate (Id : Option Nat) (m : RoleMap) :
    (grantRoles Id m).filter isCreate = [] := by
  induction m with
  | nil => rfl
  | cons e rest ih =>
    obtain ⟨i, v⟩ := e
    cases v <;> simp [grantRoles, isCreate, ih]

theorem filter_grantRoles_isStoreCall (Id : Option Nat) (m : RoleMap) :
    (grantRoles Id m).filter isStoreCall = grantRoles Id m := by
  induction m with
  | nil => rfl
  | cons e rest ih =>
    obtain ⟨i, v⟩ := e
    cases v <;> simp [grantRoles, isStoreCall, payload, ih]

theorem mem_grantRoles (Id : Option Nat) (m : RoleMap) (e : Effect) :
    e ∈ grantRoles Id m ↔ ∃ i, (i, true) ∈ m ∧ e = roleGrant Id i := by
  rw [grantRoles_eq]
  simp only [List.mem_map, List.mem_filter]
  constructor
  · rintro ⟨⟨i, v⟩, ⟨hmem, hv⟩, rfl⟩
    have hv' : v = true := hv
    subst hv'
    exact ⟨i, hmem, rfl⟩
  · rintro ⟨i, hmem, rfl⟩
    exact ⟨(i, true), ⟨hmem, rfl⟩, rfl⟩

/-- Role-grant calls of a save whose draft is held in `user`: one per entry of
`user.roles` marked `true`, in enumeration order, none for an entry marked
`false`. -/
theorem saveUser_roleGrants_of_user (env : Services) (s : Scope) (u : Record)
    (hu : s.user = some u) :
    (saveUser env s).effects.filter isRoleGrant =
      ((u.roles.getD []).filter (fun e => e.2)).map
        (fun e => roleGrant (persist env (outgoing env u)).1.Id e.1) := by
  rw [saveUser_of_user env s u hu, ← grantRoles_eq]
  have hA : (outgoing env u).Action = none := by rw [outgoing_eq]
  cases hid : (outgoing env u).Id <;> cases hp : (outgoing env u).Password <;>
    simp [persist, hid, hp, passwordCommand, isRoleGrant, hA, filter_grantRoles_isRoleGrant]

/-- C3: saving a draft held in `user` that has an id `k`. The save runs to
completion; among its effects there is exactly one profile update, carrying
the outgoing record, and no create call; when the draft has a password `p`
there is exactly one password-change command, `{Id: k, Action: 'Password',
NewPassword: sha(p)}`, whose `NewPassword` is the digest and so differs from `p`
whenever the digest of `p` differs from `p`; when the draft has no password
there is no password-change command. -/
theorem saveUser_existing (env : Services) (s : Scope) (u : Record) (k : Nat)
    (hu : s.user = some u) (hk : u.Id = some k) :
    (saveUser env s).error = none ∧
    (saveUser env s).effects.filter isProfileUpdate = [.update (outgoing env u)] ∧
    (saveUser env s).effects.filter isCreate = [] ∧
    (∀ p, u.Password = some p →
      (saveUser env s).effects.filter isPasswordCommand =
        [.update { Id := some k, Action := some "Password", NewPassword := some (env.sha p) }] ∧
      (env.sha p ≠ p → ∀ e ∈ (saveUser env s).effects.filter isPasswordCommand,
        ∀ r, payload e = some r → r.NewPassword ≠ some p)) ∧
    (u.Password = none → (saveUser env s).effects.filter isPasswordCommand = []) := by
  have hA : (outgoing env u).Action = none := by rw [outgoing_eq]
  have hid : (outgoing env u).Id = some k := by rw [outgoing_eq]; exact hk
  have hpw : (outgoing env u).Password = u.Password.map env.sha := by rw [outgoing_eq]
  have hcmd : ∀ p, u.Password = some p →
      (saveUser env s).effects.filter isPasswordCommand =
        [.update { Id := some k, Action := some "Password", NewPassword := some (env.sha p) }] := by
    intro p hp
    rw [saveUser_effects_existing env s u k hu hk]
    simp [passwordCommand, hpw, hp, hid, isPasswordCommand, hA,
      filter_grantRoles_isPasswordCommand]
  refine ⟨?_, ?_, ?_, ?_, ?_⟩
  · rw [saveUser_of_user env s u hu]
  · rw [saveUser_effects_existing env s u k hu hk]
    cases hp : u.Password <;>
      simp [passwordCommand, hpw, hp, isProfileUpdate, hA, filter_grantRoles_isProfileUpdate]
  · rw [saveUser_effects_existing env s u k hu hk]
    cases hp : u.Password <;>
      simp [passwordCommand, hpw, hp, isCreate, filter_grantRoles_isCreate]
  · intro p hp
    refine ⟨hcmd p hp, ?_⟩
    intro hne e he r hr
    rw [hcmd p hp] at he
    simp only [List.mem_singleton] at he
    subst he
    simp only [payload, Option.some.injEq] at hr
    subst hr
    simpa using hne
  · intro hp
    rw [saveUser_effects_existing env s u k hu hk]
    simp [passwordCommand, hpw, hp, isPasswordCommand, hA, filter_grantRoles_isPasswordCommand]

/-- Witness of C3: saving user 7 with the password "secret" sends one
password-change command with the digest. -/
theorem saveUser_existing_witness :
    editSession.user = some editRecord ∧ editRecord.Id = some 7 ∧
    (saveUser exampleServices editSession).effects.filter isPasswordCommand =
      [.update { Id := some 7, Action := some "Password",
                 NewPassword := some "sha512:secret" }] ∧
    (saveUser exampleServices editSession).effects.filter isProfileUpdate =
      [.update { Id := some 7, Password := some "sha512:secret" }] :=
  ⟨rfl, rfl,
    ((saveUser_existing exampleServices editSession editRecord 7 rfl rfl).2.2.2.1
      "secret" rfl).1,
    (saveUser_existing exampleServices editSession editRecord 7 rfl rfl).2.1⟩

/-- C4: saving a draft held in `user` that has no id. The save runs to
completion; its first store call is the create call `User.save` with the
outgoing record, that is the only create call, and there is no profile update;
when the draft has no password every store call after the create is a
role-grant command. -/
theorem saveUser_fresh (env : Services) (s : Scope) (u : Record)
    (hu : s.user = some u) (hid : u.Id = none) :
    (saveUser env s).error = none ∧
    (saveUser env s).effects.filter isCreate = [.save (outgoing env u)] ∧
    (saveUser env s).effects.filter isProfileUpdate = [] ∧
    ∃ rest, (saveUser env s).effects.filter isStoreCall = .save (outgoing env u) :: rest ∧
      (∀ e ∈ rest, isCreate e = false ∧ isProfileUpdate e = false) ∧
      (u.Password = none → ∀ e ∈ rest, isRoleGrant e = true) := by
  have hpw : (outgoing env u).Password = u.Password.map env.sha := by rw [outgoing_eq]
  have heff := saveUser_effects_fresh env s u hu hid
  refine ⟨?_, ?_, ?_, ?_⟩
  · rw [saveUser_of_user env s u hu]
  · rw [heff]
    cases hp : u.Password <;>
      simp [passwordCommand, hpw, hp, isCreate, filter_grantRoles_isCreate]
  · rw [heff]
    cases hp : u.Password <;>
      simp [passwordCommand, hpw, hp, isProfileUpdate, filter_grantRoles_isProfileUpdate]
  · refine ⟨passwordCommand { outgoing env u with Id := (env.save (outgoing env u)).Id } ++
      grantRoles (env.save (outgoing env u)).Id (u.roles.getD []), ?_, ?_, ?_⟩
    · rw [heff]
      cases hp : u.Password <;>
        simp [passwordCommand, hpw, hp, isStoreCall, payload, filter_grantRoles_isStoreCall]
    · intro e he
      rcases List.mem_append.1 he with h | h
      · cases hp : u.Password
        · simp [passwordCommand, hpw, hp] at h
        · simp [passwordCommand, hpw, hp] at h
          subst h
          simp [isCreate, isProfileUpdate]
      · obtain ⟨i, -, rfl⟩ := (mem_grantRoles _ _ e).1 h
        simp [roleGrant, isCreate, isProfileUpdate]
    · intro hp e he
      rcases List.mem_append.1 he with h | h
      · simp [passwordCommand, hpw, hp] at h
      · obtain ⟨i, -, rfl⟩ := (mem_grantRoles _ _ e).1 h
        simp [roleGrant, isRoleGrant]

/-- Witness of C4: saving the record `{FirstName: "A"}` with role 1 checked
makes one create call and no profile update. -/
theorem saveUser_fresh_witness :
    freshSession.user = some freshRecord ∧ freshRecord.Id = none ∧
    (saveUser exampleServices freshSession).effects.filter isCreate =
      [.save { FirstName := some "A" }] ∧
    (saveUser exampleServices freshSession).effects.filter isProfileUpdate = [] :=
  ⟨rfl, rfl, (saveUser_fresh exampleServices freshSession freshRecord rfl rfl).2.1,
    (saveUser_fresh exampleServices freshSession freshRecord rfl rfl).2.2.1⟩

/-- C6: the password leaves hashed. Let `d` be the draft of a save (`user`,
or `newUser` when `user` is undefined) and `p` its password. Every object the
save hands to `User.save` or `User.update` has a `Password` that is absent or
`sha(p)` and a `NewPassword` that is absent or `sha(p)`, so neither field holds
`p` unless `p` is its own digest. When the draft is held in `user`, on the
create path as on the update path, the first effect of the save is the store
call with the outgoing record, whose `Password` is `sha(p)`, and the second is
the password-change command with `NewPassword` equal to the same `sha(p)`. -/
theorem saveUser_password_hashed (env : Services) (s : Scope) (d : Record) (p : String)
    (hd : s.user = some d ∨ (s.user = none ∧ s.newUser = some d))
    (hp : d.Password = some p) :
    (∀ e ∈ (saveUser env s).effects, ∀ r, payload e = some r →
      (r.Password = none ∨ r.Password = some (env.sha p)) ∧
      (r.NewPassword = none ∨ r.NewPassword = some (env.sha p)) ∧
      (env.sha p ≠ p → r.Password ≠ some p ∧ r.NewPassword ≠ some p)) ∧
    (s.user = some d →
      (outgoing env d).Password = some (env.sha p) ∧
      ∃ first Id rest,
        (saveUser env s).effects =
          first ::
            .update { Id := Id, Action := some "Password", NewPassword := some (env.sha p) } ::
            rest ∧
        ((d.Id = none ∧ first = .save (outgoing env d)) ∨
          (d.Id ≠ none ∧ first = .update (outgoing env d)))) := by
  have hpw : (outgoing env d).Password = some (env.sha p) := by rw [outgoing_eq, hp]; rfl
  have hnew : (outgoing env d).NewPassword = none := by rw [outgoing_eq]
  have hshape : ∀ r : Record,
      (r.Password = none ∨ r.Password = some (env.sha p)) →
      (r.NewPassword = none ∨ r.NewPassword = some (env.sha p)) →
      (r.Password = none ∨ r.Password = some (env.sha p)) ∧
      (r.NewPassword = none ∨ r.NewPassword = some (env.sha p)) ∧
      (env.sha p ≠ p → r.Password ≠ some p ∧ r.NewPassword ≠ some p) := by
    intro r h1 h2
    refine ⟨h1, h2, fun hne => ⟨?_, ?_⟩⟩
    · rcases h1 with h | h <;> rw [h] <;> simp [hne]
    · rcases h2 with h | h <;> rw [h] <;> simp [hne]
  constructor
  · intro e he r hr
    rcases hd with hu | ⟨hu, -⟩
    · rw [saveUser_of_user env s d hu] at he
      simp only [List.mem_append, List.mem_singleton] at he
      rcases he with he | he | he | he
      · cases hid : (outgoing env d).Id
        · simp [persist, hid] at he
          subst he
          simp only [payload, Option.some.injEq] at hr
          subst hr
          exact hshape _ (Or.inr hpw) (Or.inl hnew)
        · simp [persist, hid] at he
          subst he
          simp only [payload, Option.some.injEq] at hr
          subst hr
          exact hshape _ (Or.inr hpw) (Or.inl hnew)
      · have hpw' : (persist env (outgoing env d)).1.Password = some (env.sha p) := by
          cases hid : (outgoing env d).Id <;> simp [persist, hid, hpw]
        simp [passwordCommand, hpw'] at he
        subst he
        simp only [payload, Option.some.injEq] at hr
        subst hr
        exact hshape _ (Or.inl rfl) (Or.inr rfl)
      · obtain ⟨i, -, rfl⟩ := (mem_grantRoles _ _ e).1 he
        simp only [roleGrant, payload, Option.some.injEq] at hr
        subst hr
        exact hshape _ (Or.inl rfl) (Or.inl rfl)
      · subst he
        simp [payload] at hr
    · rw [saveUser_of_no_user env s hu] at he
      simp at he
  · intro hu
    refine ⟨hpw, ?_⟩
    cases hid : d.Id with
    | none =>
      refine ⟨.save (outgoing env d), (env.save (outgoing env d)).Id,
        grantRoles (env.save (outgoing env d)).Id (d.roles.getD []) ++ [.loadUsers], ?_,
        Or.inl ⟨rfl, rfl⟩⟩
      rw [saveUser_effects_fresh env s d hu hid]
      simp [passwordCommand, hpw]
    | some k =>
      have hid' : (outgoing env d).Id = some k := by rw [outgoing_eq]; exact hid
      refine ⟨.update (outgoing env d), some k,
        grantRoles (some k) (d.roles.getD []) ++ [.loadUsers], ?_, Or.inr ⟨by simp, rfl⟩⟩
      rw [saveUser_effects_existing env s d k hu hid]
      simp [passwordCommand, hpw, hid']

/-- Witness of C6: the record saved with the password "pw" carries its
digest. -/
theorem saveUser_password_hashed_witness :
    (freshSessionWithPassword.user = some freshRecordWithPassword ∨
      (freshSessionWithPassword.user = none ∧
        freshSessionWithPassword.newUser = some freshRecordWithPassword)) ∧
    freshRecordWithPassword.Password = some "pw" ∧
    (outgoing exampleServices freshRecordWithPassword).Password = some "sha512:pw" :=
  ⟨Or.inl rfl, rfl,
    ((saveUser_password_hashed exampleServices freshSessionWithPassword
      freshRecordWithPassword "pw" (Or.inl rfl) rfl).2 rfl).1⟩

/-- C10: adopted id. For a draft held in `user` that has no id, the store
calls of the save are the create call followed by calls to `User.update` that
all carry the `Id` of the object `User.save` returned (so `n` when it returned
id `n`); the password-change command, when the draft has a password, and the
role-grant command of every role marked `true` are among them. For a draft
with id `k`, every store call of the save is a `User.update` carrying
`Id = k`. -/
theorem saveUser_adopted_id (env : Services) (s : Scope) (u : Record)
    (hu : s.user = some u) :
    (u.Id = none →
      ∃ rest, (saveUser env s).effects.filter isStoreCall = .save (outgoing env u) :: rest ∧
        (∀ e ∈ rest, ∃ r, e = .update r ∧ r.Id = (env.save (outgoing env u)).Id) ∧
        (∀ n, (env.save (outgoing env u)).Id = some n →
          ∀ e ∈ rest, ∃ r, e = .update r ∧ r.Id = some n) ∧
        (∀ p, u.Password = some p →
          .update { Id := (env.save (outgoing env u)).Id, Action := some "Password",
                    NewPassword := some (env.sha p) } ∈ rest) ∧
        (∀ i, (i, true) ∈ u.roles.getD [] →
          roleGrant (env.save (outgoing env u)).Id i ∈ rest)) ∧
    (∀ k, u.Id = some k →
      (∀ e ∈ (saveUser env s).effects.filter isStoreCall, ∃ r, e = .update r ∧ r.Id = some k) ∧
      .update (outgoing env u) ∈ (saveUser env s).effects ∧
      (∀ p, u.Password = some p →
        .update { Id := some k, Action := some "Password",
                  NewPassword := some (env.sha p) } ∈ (saveUser env s).effects) ∧
      (∀ i, (i, true) ∈ u.roles.getD [] → roleGrant (some k) i ∈ (saveUser env s).effects)) := by
  have hpw : (outgoing env u).Password = u.Password.map env.sha := by rw [outgoing_eq]
  constructor
  · intro hid
    have hrest : ∀ e ∈ passwordCommand
          { outgoing env u with Id := (env.save (outgoing env u)).Id } ++
        grantRoles (env.save (outgoing env u)).Id (u.roles.getD []),
        ∃ r, e = .update r ∧ r.Id = (env.save (outgoing env u)).Id := by
      intro e he
      rcases List.mem_append.1 he with h | h
      · cases hp : u.Password
        · simp [passwordCommand, hpw, hp] at h
        · simp [passwordCommand, hpw, hp] at h
          subst h
          exact ⟨_, rfl, rfl⟩
      · obtain ⟨i, -, rfl⟩ := (mem_grantRoles _ _ e).1 h
        exact ⟨_, rfl, rfl⟩
    refine ⟨passwordCommand { outgoing env u with Id := (env.save (outgoing env u)).Id } ++
      grantRoles (env.save (outgoing env u)).Id (u.roles.getD []), ?_, hrest, ?_, ?_, ?_⟩
    · rw [saveUser_effects_fresh env s u hu hid]
      cases hp : u.Password <;>
        simp [passwordCommand, hpw, hp, isStoreCall, payload, filter_grantRoles_isStoreCall]
    · intro n hn e he
      obtain ⟨r, hr, hrid⟩ := hrest e he
      exact ⟨r, hr, hrid.trans hn⟩
    · intro p hp
      apply List.mem_append_left
      simp [passwordCommand, hpw, hp]
    · intro i hi
      apply List.mem_append_right
      exact (mem_grantRoles _ _ _).2 ⟨i, hi, rfl⟩
  · intro k hk
    have hid : (outgoing env u).Id = some k := by rw [outgoing_eq]; exact hk
    have heff := saveUser_effects_existing env s u k hu hk
    refine ⟨?_, ?_, ?_, ?_⟩
    · intro e he
      obtain ⟨hmem, hstore⟩ := List.mem_filter.1 he
      rw [heff] at hmem
      simp only [List.mem_cons, List.mem_append, List.not_mem_nil, or_false] at hmem
      rcases hmem with h | h | h | h
      · exact ⟨_, h, hid⟩
      · cases hp : u.Password
        · simp [passwordCommand, hpw, hp] at h
        · simp [passwordCommand, hpw, hp, hid] at h
          subst h
          exact ⟨_, rfl, rfl⟩
      · obtain ⟨i, -, rfl⟩ := (mem_grantRoles _ _ e).1 h
        exact ⟨_, rfl, rfl⟩
      · subst h
        simp [isStoreCall, payload] at hstore
    · rw [heff]
      exact List.mem_cons_self _ _
    · intro p hp
      rw [heff]
      apply List.mem_cons_of_mem
      apply List.mem_append_left
      simp [passwordCommand, hpw, hp, hid]
    · intro i hi
      rw [heff]
      apply List.mem_cons_of_mem
      apply List.mem_append_right
      apply List.mem_append_left
      exact (mem_grantRoles _ _ _).2 ⟨i, hi, rfl⟩

/-- Witness of C10: the record saved without an id gets id 42 from the store,
and the password-change command and the grants of roles 1 and 2 carry 42. -/
theorem saveUser_adopted_id_witness :
    freshSessionWithPassword.user = some freshRecordWithPassword ∧
    freshRecordWithPassword.Id = none ∧
    ∃ rest,
      (saveUser exampleServices freshSessionWithPassword).effects.filter isStoreCall =
        .save (outgoing exampleServices freshRecordWithPassword) :: rest ∧
      (∀ e ∈ rest, ∃ r, e = .update r ∧ r.Id = some 42) ∧
      roleGrant (some 42) 2 ∈ rest :=
  ⟨rfl, rfl,
    match (saveUser_adopted_id exampleServices freshSessionWithPassword
      freshRecordWithPassword rfl).1 rfl with
    | ⟨rest, h1, h2, _, _, h5⟩ => ⟨rest, h1, h2, h5 2 (by decide)⟩⟩

/-- C2, at a draft held in `newUser`: with `user` undefined and role 1 marked
`true` in `newUser.roles`, the save stops on the read of `$scope.user` in line
71 and issues no role-grant call, although the loop of lines 95-99 would grant
role 1. -/
theorem saveUser_newUser_no_grant :
    newSessionEdited.user = none ∧
    (∃ d, newSessionEdited.newUser = some d ∧ (1, true) ∈ d.roles.getD []) ∧
    (saveUser exampleServices newSessionEdited).effects.filter isRoleGrant = [] ∧
    (saveUser exampleServices newSessionEdited).error = some .typeError ∧
    roleCommands newSessionEdited (some 42) = some [roleGrant (some 42) 1] := by
  refine ⟨rfl, ⟨_, rfl, by decide⟩, ?_, ?_, rfl⟩
  · rw [saveUser_of_no_user _ _ rfl]
    rfl
  · rw [saveUser_of_no_user _ _ rfl]

/-- C5, create-mode save: in the session the NEW sentinel produces (`user`
undefined, `newUser` the shell with every role `false`) and in the same
session after role 1 was checked and a first name typed, the save throws on
the read of `$scope.user` in line 71: no create call, no role-grant call, no
`loadUsers` notification, and the session stays enabled. -/
theorem saveUser_create_mode_throws :
    newSession.user = none ∧ newSession.newUser ≠ none ∧
    saveUser exampleServices newSession =
      { scope := newSession, effects := [], error := some .typeError } ∧
    newSessionEdited.user = none ∧ newSessionEdited.newUser ≠ none ∧
    saveUser exampleServices newSessionEdited =
      { scope := newSessionEdited, effects := [], error := some .typeError } ∧
    (saveUser exampleServices newSessionEdited).scope.enabled = true := by
  have h1 : newSession.user = none := rfl
  have h2 : newSessionEdited.user = none := rfl
  refine ⟨h1, by decide, saveUser_of_no_user _ _ h1, h2, by decide,
    saveUser_of_no_user _ _ h2, ?_⟩
  rw [saveUser_of_no_user _ _ h2]
  rfl

/-! ## Unload and the session invariant -/

/-- C7 fails as stated: in the session the NEW sentinel produces, `unloadUser`
leaves `newUser` defined; and in the session where user 7 was selected after
the NEW sentinel, the save runs to completion and leaves `newUser` defined. -/
theorem unloadUser_keeps_newUser :
    ¬ ((unloadUser newSession).enabled = false ∧ (unloadUser newSession).user = none ∧
        (unloadUser newSession).newUser = none ∧
        (unloadUser newSession).selectedUserId = none) ∧
    (saveUser exampleServices newThenEditSession).error = none ∧
    (saveUser exampleServices newThenEditSession).scope.newUser ≠ none := by
  refine ⟨by decide, ?_, ?_⟩
  · rw [saveUser_of_user _ _ _ rfl]
  · rw [saveUser_of_user _ _ _ rfl]
    decide

/-- C7 as amended: `unloadUser` leaves `enabled = false`, `user` undefined and
`selectedUserId = null`, and leaves `newUser` and the catalog as they were; a
save completes exactly when `user` is defined, and the scope it then leaves is
the one `unloadUser` leaves. -/
theorem unloadUser_idle (env : Services) (s : Scope) :
    (unloadUser s).enabled = false ∧ (unloadUser s).user = none ∧
    (unloadUser s).selectedUserId = none ∧ (unloadUser s).newUser = s.newUser ∧
    (unloadUser s).roleList = s.roleList ∧
    ((saveUser env s).error = none ↔ s.user ≠ none) ∧
    ((saveUser env s).error = none → (saveUser env s).scope = unloadUser s) := by
  refine ⟨rfl, rfl, rfl, rfl, rfl, ?_, ?_⟩
  · cases hu : s.user with
    | none => rw [saveUser_of_no_user env s hu]; simp
    | some u => rw [saveUser_of_user env s u hu]; simp
  · cases hu : s.user with
    | none => rw [saveUser_of_no_user env s hu]; simp
    | some u => rw [saveUser_of_user env s u hu]; simp

/-- Witness of C7 as amended: saving user 7 completes and leaves the session
idle. -/
theorem unloadUser_idle_witness :
    (saveUser exampleServices editSession).error = none ∧
    (saveUser exampleServices editSession).scope = unloadUser editSession ∧
    (unloadUser editSession).enabled = false :=
  ⟨(unloadUser_idle exampleServices editSession).2.2.2.2.2.1.2 (by decide),
    (unloadUser_idle exampleServices editSession).2.2.2.2.2.2
      ((unloadUser_idle exampleServices editSession).2.2.2.2.2.1.2 (by decide)),
    (unloadUser_idle exampleServices editSession).1⟩

/-- C8 fails as stated: selecting the NEW sentinel and then user 7 leads to a
reachable session with `enabled = true` in which `user` and `newUser` are both
defined. -/
theorem reachable_both_defined :
    Reachable exampleServices newThenEditSession ∧
    newThenEditSession.enabled = true ∧
    newThenEditSession.user ≠ none ∧ newThenEditSession.newUser ≠ none :=
  ⟨Reachable.next _ _ (Reachable.next _ _ Reachable.start), by decide, by decide, by decide⟩

theorem afterLoad_loadUser_defined (env : Services) (s : Scope) (userId : Nat)
    (h : s.enabled = true → s.user ≠ none ∨ s.newUser ≠ none) :
    (afterLoad (loadUser env s userId)).enabled = true →
      (afterLoad (loadUser env s userId)).user ≠ none ∨
        (afterLoad (loadUser env s userId)).newUser ≠ none := by
  cases hl : env.UserDetailLoader userId with
  | none =>
    have : afterLoad (loadUser env s userId) = s := by simp [loadUser, hl, afterLoad]
    rw [this]
    exact h
  | some loaded =>
    intro _
    left
    simp [loadUser, hl, afterLoad, watchUser]

theorem afterLoad_watch_eq (env : Services) (s : Scope) (n : Nat) :
    afterLoad (watchSelectedUserId env s (some (n + 1))) = afterLoad (loadUser env s (n + 1)) := by
  cases hl : env.UserDetailLoader (n + 1) <;>
    simp [watchSelectedUserId, loadUser, hl, afterLoad]

theorem step_defined (env : Services) (s : Scope) (op : Op)
    (h : s.enabled = true → s.user ≠ none ∨ s.newUser ≠ none) :
    (step env s op).enabled = true →
      (step env s op).user ≠ none ∨ (step env s op).newUser ≠ none := by
  cases op with
  | select v =>
    cases v with
    | none => exact h
    | some n =>
      cases n with
      | zero =>
        intro _
        right
        simp [step, watchSelectedUserId]
      | succ n =>
        show (afterLoad (watchSelectedUserId env _ (some (n + 1)))).enabled = true → _
        rw [afterLoad_watch_eq]
        exact afterLoad_loadUser_defined env _ (n + 1) h
  | load userId => exact afterLoad_loadUser_defined env s userId h
  | unload =>
    intro he
    simp [step, unloadUser] at he
  | save =>
    cases hu : s.user with
    | none =>
      have : step env s .save = s := by simp [step, saveUser_of_no_user env s hu]
      rw [this]
      exact h
    | some u =>
      intro he
      simp [step, saveUser_of_user env s u hu, unloadUser] at he
  | refresh roleList => exact h

/-- C8 as amended: in every session reachable from start-up by selections,
loads, unloads, saves and catalog refreshes, `enabled = true` implies that at
least one of `user` and `newUser` is defined. -/
theorem reachable_enabled_defined (env : Services) (s : Scope)
    (hr : Reachable env s) (he : s.enabled = true) :
    s.user ≠ none ∨ s.newUser ≠ none := by
  revert he
  induction hr with
  | start =>
    intro h
    simp [initialScope] at h
  | next s op _ ih => exact step_defined env s op ih

/-- Witness of C8 as amended: the session the NEW sentinel produces is
reachable and enabled, and its `newUser` is defined. -/
theorem reachable_enabled_defined_witness :
    Reachable exampleServices newSession ∧ newSession.enabled = true ∧
    (newSession.user ≠ none ∨ newSession.newUser ≠ none) :=
  ⟨Reachable.next _ _ Reachable.start, by decide,
    reachable_enabled_defined exampleServices newSession
      (Reachable.next _ _ Reachable.start) (by decide)⟩

/-! ## Loading -/

/-- C11: load-failure atomicity. When `UserDetailLoader` throws for `userId`,
`loadUser(userId)` lets the exception escape and leaves the scope as it was
(`user`, `newUser`, `enabled` and everything else); so does the listener on
`selectedUserId` run with that id, when it is not the NEW sentinel; a session
that was idle before is idle after. -/
theorem loadUser_failure (env : Services) (s : Scope) (userId : Nat)
    (hf : env.UserDetailLoader userId = none) :
    (loadUser env s userId).error = some .loadError ∧
    (loadUser env s userId).scope = s ∧
    (userId ≠ 0 →
      (watchSelectedUserId env s (some userId)).error = some .loadError ∧
      (watchSelectedUserId env s (some userId)).scope = s) ∧
    afterLoad (loadUser env s userId) = s ∧
    (s.enabled = false → (loadUser env s userId).scope.enabled = false) := by
  have h1 : loadUser env s userId =
      { scope := s, effects := [.load userId], error := some .loadError } := by
    simp [loadUser, hf]
  refine ⟨by rw [h1], by rw [h1], ?_, ?_, ?_⟩
  · intro h0
    cases userId with
    | zero => exact absurd rfl h0
    | succ n => simp [watchSelectedUserId, h1]
  · rw [h1]
    rfl
  · intro he
    rw [h1]
    exact he

/-- Witness of C11: user 9 cannot be loaded; the session editing user 7 is
left as it was. -/
theorem loadUser_failure_witness :
    exampleServices.UserDetailLoader 9 = none ∧
    (loadUser exampleServices editSession 9).error = some .loadError ∧
    (loadUser exampleServices editSession 9).scope = editSession :=
  ⟨rfl, (loadUser_failure exampleServices editSession 9 rfl).1,
    (loadUser_failure exampleServices editSession 9 rfl).2.1⟩

/-- C14: explicit load and reactive load agree. For an id other than the NEW
sentinel, the listener on `selectedUserId` run with that id leaves the same
scope and raises the same exception as `loadUser` called with it, also after
the listener on `user` has run; when the loader returns a record, that scope
has `user` equal to the record, `enabled = true` and `newUser` as before. -/
theorem watchSelectedUserId_eq_loadUser (env : Services) (s : Scope) (userId : Nat)
    (h0 : userId ≠ 0) :
    (watchSelectedUserId env s (some userId)).scope = (loadUser env s userId).scope ∧
    (watchSelectedUserId env s (some userId)).error = (loadUser env s userId).error ∧
    afterLoad (watchSelectedUserId env s (some userId)) = afterLoad (loadUser env s userId) ∧
    (∀ loaded, env.UserDetailLoader userId = some loaded →
      (loadUser env s userId).error = none ∧
      (loadUser env s userId).scope.user = some loaded ∧
      (loadUser env s userId).scope.enabled = true ∧
      (loadUser env s userId).scope.newUser = s.newUser) := by
  cases userId with
  | zero => exact absurd rfl h0
  | succ n =>
    refine ⟨?_, ?_, ?_, ?_⟩
    · simp [watchSelectedUserId]
    · simp [watchSelectedUserId]
    · cases hl : env.UserDetailLoader (n + 1) <;>
        simp [watchSelectedUserId, loadUser, hl, afterLoad]
    · intro loaded hl
      simp [loadUser, hl]

/-- Witness of C14: selecting user 7 in the session the NEW sentinel produced
leaves the scope `loadUser(7)` leaves. -/
theorem watchSelectedUserId_eq_loadUser_witness :
    (7 : Nat) ≠ 0 ∧
    (watchSelectedUserId exampleServices newSession (some 7)).scope =
      (loadUser exampleServices newSession 7).scope ∧
    (loadUser exampleServices newSession 7).scope.enabled = true :=
  ⟨by decide, (watchSelectedUserId_eq_loadUser exampleServices newSession 7 (by decide)).1,
    ((watchSelectedUserId_eq_loadUser exampleServices newSession 7 (by decide)).2.2.2
      _ rfl).2.2.1⟩

/-- C17: the listener on `selectedUserId` run with `null` does nothing: the
scope is left as it was, no effect is emitted (no loader call, no store call,
no tab activation) and nothing is thrown. -/
theorem watchSelectedUserId_null (env : Services) (s : Scope) :
    watchSelectedUserId env s none = { scope := s, effects := [], error := none } ∧
    (watchSelectedUserId env s none).scope.user = s.user ∧
    (watchSelectedUserId env s none).scope.newUser = s.newUser ∧
    (watchSelectedUserId env s none).scope.enabled = s.enabled ∧
    (watchSelectedUserId env s none).scope.roleList = s.roleList ∧
    (watchSelectedUserId env s none).effects = [] := by
  have h : watchSelectedUserId env s none = { scope := s, effects := [], error := none } := by
    simp [watchSelectedUserId]
  refine ⟨h, ?_, ?_, ?_, ?_, ?_⟩ <;> rw [h]

/-- C16: `unloadUser` is idempotent and sets `selectedUserId` to `null`,
`user` to undefined and `enabled` to `false`. -/
theorem unloadUser_idempotent (s : Scope) :
    unloadUser (unloadUser s) = unloadUser s ∧
    (unloadUser s).selectedUserId = none ∧ (unloadUser s).user = none ∧
    (unloadUser s).enabled = false :=
  ⟨rfl, rfl, rfl, rfl⟩

/-! ## Reconciliation and catalog refresh -/

theorem mem_keys_reconcileRoles (C : List Role) (U : Record) (id : Nat) :
    id ∈ RoleMap.keys (reconcileRoles C U) ↔ ∃ r ∈ C, r.Id = id :=
  mem_keys_of_lookup C _
    (fun j hj => ⟨_, (lookup_reconcileRoles C U j).1 hj⟩)
    (fun j hj => (lookup_reconcileRoles C U j).2 hj) id

/-- C18: role-map reconciliation is idempotent. Running the listener on
`user` again on the record it has just reconciled, against the same catalog,
leaves the scope as it is, so the assignment `$scope.user = user` of line 45
is a fixed point. -/
theorem watchUser_idempotent (s : Scope) (U : Record) :
    watchUser (watchUser s (some U)) (watchUser s (some U)).user = watchUser s (some U) ∧
    ∀ R, (watchUser s (some U)).user = some R →
      (watchUser (watchUser s (some U)) (some R)).user = some R := by
  constructor
  · rfl
  · intro R hR
    have h : R = { U with roles := some (reconcileRoles s.roleList U) } := by
      have h' : some { U with roles := some (reconcileRoles s.roleList U) } = some R := hR
      exact (Option.some.inj h').symm
    subst h
    rfl

/-- C19: role-map reconciliation changes only `user.roles`. The reconciled
record has the id, the profile fields, the password and the `roleList` of the
record given, and every other property but `roles` as well; `selectedUserId`,
`newUser`, `enabled` and the catalog of the scope are left as they were. -/
theorem watchUser_frame (s : Scope) (U : Record) :
    ∃ R, (watchUser s (some U)).user = some R ∧
      R.Id = U.Id ∧ R.FirstName = U.FirstName ∧ R.LastName = U.LastName ∧
      R.Name = U.Name ∧ R.Password = U.Password ∧ R.EMail = U.EMail ∧
      R.PhoneNumber = U.PhoneNumber ∧ R.Address = U.Address ∧
      R.Action = U.Action ∧ R.Action2 = U.Action2 ∧ R.NewPassword = U.NewPassword ∧
      R.roleList = U.roleList ∧
      (watchUser s (some U)).selectedUserId = s.selectedUserId ∧
      (watchUser s (some U)).newUser = s.newUser ∧
      (watchUser s (some U)).enabled = s.enabled ∧
      (watchUser s (some U)).roleList = s.roleList :=
  ⟨{ U with roles := some (reconcileRoles s.roleList U) }, rfl, rfl, rfl, rfl, rfl, rfl, rfl,
    rfl, rfl, rfl, rfl, rfl, rfl, rfl, rfl, rfl, rfl⟩

/-- C15: catalog refresh frame. The listener on `roleList` run with a defined
catalog `C` replaces the cached catalog and nothing else: `selectedUserId`,
`user` with its `roles`, `newUser` with its `roles` and `enabled` are as
before, so the role maps already built keep the ids of the old catalog. Only
the next run of the listener on `user` builds a map whose keys are the ids of
`C`. -/
theorem watchRoleList_frame (env : Services) (s : Scope) (C : List Role) :
    watchRoleList s (some C) = { s with roleList := C } ∧
    (watchRoleList s (some C)).roleList = C ∧
    (watchRoleList s (some C)).user = s.user ∧
    (watchRoleList s (some C)).newUser = s.newUser ∧
    (watchRoleList s (some C)).enabled = s.enabled ∧
    (watchRoleList s (some C)).selectedUserId = s.selectedUserId ∧
    step env s (.refresh C) = { s with roleList := C } ∧
    (∀ U, ∃ m, (watchUser (watchRoleList s (some C)) (some U)).user
        = some { U with roles := some m } ∧
      ∀ id, id ∈ RoleMap.keys m ↔ ∃ r ∈ C, r.Id = id) :=
  ⟨rfl, rfl, rfl, rfl, rfl, rfl, rfl,
    fun U => ⟨reconcileRoles C U, rfl, mem_keys_reconcileRoles C U⟩⟩

/-! ## The outgoing record and the order of effects -/

/-- C12: whitelist copy. Let `d` be the draft of a save (`user`, or `newUser`
when `user` is undefined). Every record the save hands to `User.save`, or to
`User.update` as a profile update, has for each of `Id`, `FirstName`,
`LastName`, `Name`, `EMail`, `PhoneNumber` and `Address` the value of `d`
(undefined when `d` has none), for `Password` the digest of the password of
`d` (undefined when `d` has none), and no `Action`, `Action2`, `NewPassword`,
`roleList` or `roles`. When the draft is held in `user`, exactly one such call
is made and its record is the outgoing record. -/
theorem saveUser_whitelist (env : Services) (s : Scope) (d : Record)
    (hd : s.user = some d ∨ (s.user = none ∧ s.newUser = some d)) :
    (∀ e ∈ (saveUser env s).effects, (isCreate e = true ∨ isProfileUpdate e = true) →
      ∀ r, payload e = some r →
        r.Id = d.Id ∧ r.FirstName = d.FirstName ∧ r.LastName = d.LastName ∧
        r.Name = d.Name ∧ r.Password = d.Password.map env.sha ∧ r.EMail = d.EMail ∧
        r.PhoneNumber = d.PhoneNumber ∧ r.Address = d.Address ∧
        r.Action = none ∧ r.Action2 = none ∧ r.NewPassword = none ∧
        r.roleList = none ∧ r.roles = none) ∧
    (s.user = some d →
      ∃ e, (saveUser env s).effects.filter (fun e => isCreate e || isProfileUpdate e) = [e] ∧
        payload e = some (outgoing env d)) := by
  have hout : ∀ r, r = outgoing env d →
      r.Id = d.Id ∧ r.FirstName = d.FirstName ∧ r.LastName = d.LastName ∧
      r.Name = d.Name ∧ r.Password = d.Password.map env.sha ∧ r.EMail = d.EMail ∧
      r.PhoneNumber = d.PhoneNumber ∧ r.Address = d.Address ∧
      r.Action = none ∧ r.Action2 = none ∧ r.NewPassword = none ∧
      r.roleList = none ∧ r.roles = none := by
    intro r hr
    rw [hr, outgoing_eq]
    exact ⟨rfl, rfl, rfl, rfl, rfl, rfl, rfl, rfl, rfl, rfl, rfl, rfl, rfl⟩
  have hpw : (outgoing env d).Password = d.Password.map env.sha := by rw [outgoing_eq]
  have hA : (outgoing env d).Action = none := by rw [outgoing_eq]
  constructor
  · intro e he hkind r hr
    rcases hd with hu | ⟨hu, -⟩
    · rw [saveUser_of_user env s d hu] at he
      simp only [List.mem_append, List.mem_singleton] at he
      rcases he with he | he | he | he
      · apply hout
        cases hid : (outgoing env d).Id
        · simp [persist, hid] at he
          subst he
          simp only [payload, Option.some.injEq] at hr
          exact hr.symm
        · simp [persist, hid] at he
          subst he
          simp only [payload, Option.some.injEq] at hr
          exact hr.symm
      · cases hp : (persist env (outgoing env d)).1.Password
        · simp [passwordCommand, hp] at he
        · simp [passwordCommand, hp] at he
          subst he
          simp [isCreate, isProfileUpdate] at hkind
      · obtain ⟨i, -, rfl⟩ := (mem_grantRoles _ _ e).1 he
        simp [roleGrant, isCreate, isProfileUpdate] at hkind
      · subst he
        simp [isCreate, isProfileUpdate] at hkind
    · rw [saveUser_of_no_user env s hu] at he
      simp at he
  · intro hu
    cases hid : d.Id with
    | none =>
      refine ⟨.save (outgoing env d), ?_, rfl⟩
      rw [saveUser_effects_fresh env s d hu hid]
      cases hp : d.Password <;>
        simp [passwordCommand, hpw, hp, isCreate, isProfileUpdate] <;>
        (intro a ha
         obtain ⟨i, -, rfl⟩ := (mem_grantRoles _ _ a).1 ha
         simp [roleGrant])
    | some k =>
      refine ⟨.update (outgoing env d), ?_, rfl⟩
      rw [saveUser_effects_existing env s d k hu hid]
      cases hp : d.Password <;>
        simp [passwordCommand, hpw, hp, isCreate, isProfileUpdate, hA] <;>
        (intro a ha
         obtain ⟨i, -, rfl⟩ := (mem_grantRoles _ _ a).1 ha
         simp [roleGrant])

/-- Witness of C12: the record sent for user 7 holds the id and the digest of
"secret" and nothing else, the role map and the assigned roles of the draft
included. -/
theorem saveUser_whitelist_witness :
    (editSession.user = some editRecord ∨
      (editSession.user = none ∧ editSession.newUser = some editRecord)) ∧
    editRecord.roles ≠ none ∧ editRecord.roleList ≠ none ∧
    ∃ e, (saveUser exampleServices editSession).effects.filter
        (fun e => isCreate e || isProfileUpdate e) = [e] ∧
      payload e = some (outgoing exampleServices editRecord) :=
  ⟨Or.inl rfl, by decide, by decide,
    (saveUser_whitelist exampleServices editSession editRecord (Or.inl rfl)).2 rfl⟩

/-- C13: order of the effects of a save that runs to completion. The draft is
then held in `user`, and the effects are, in this order: one persistence call,
`User.save` with the outgoing record when the draft has no id and `User.update`
with it otherwise; the password-change command when the draft has a password
and nothing when it has none; the role-grant commands of the entries marked
`true`, in enumeration order; one `loadUsers` notification. Everything before
the notification is a store call and nothing follows it; the scope left is the
one `unloadUser` leaves. -/
theorem saveUser_effect_order (env : Services) (s : Scope)
    (hc : (saveUser env s).error = none) :
    ∃ u first Id pw,
      s.user = some u ∧
      ((u.Id = none ∧ first = .save (outgoing env u) ∧ Id = (env.save (outgoing env u)).Id) ∨
        (∃ k, u.Id = some k ∧ first = .update (outgoing env u) ∧ Id = some k)) ∧
      (∀ p, u.Password = some p →
        pw = [.update { Id := Id, Action := some "Password",
                        NewPassword := some (env.sha p) }]) ∧
      (u.Password = none → pw = []) ∧
      (saveUser env s).effects =
        first :: (pw ++ (((u.roles.getD []).filter (fun e => e.2)).map
          (fun e => roleGrant Id e.1) ++ [.loadUsers])) ∧
      (∀ e ∈ first :: (pw ++ ((u.roles.getD []).filter (fun e => e.2)).map
          (fun e => roleGrant Id e.1)), isStoreCall e = true) ∧
      (saveUser env s).scope = unloadUser s := by
  cases hu : s.user with
  | none =>
    rw [saveUser_of_no_user env s hu] at hc
    simp at hc
  | some u =>
    have hpw : (outgoing env u).Password = u.Password.map env.sha := by rw [outgoing_eq]
    have hscope : (saveUser env s).scope = unloadUser s := by
      rw [saveUser_of_user env s u hu]
    have hstore : ∀ (first : Effect) (Id : Option Nat) (pw : List Effect),
        isStoreCall first = true → (∀ e ∈ pw, isStoreCall e = true) →
        ∀ e ∈ first :: (pw ++ ((u.roles.getD []).filter (fun e => e.2)).map
          (fun e => roleGrant Id e.1)), isStoreCall e = true := by
      intro first Id pw h1 h2 e he
      rcases List.mem_cons.1 he with rfl | he
      · exact h1
      · rcases List.mem_append.1 he with he | he
        · exact h2 e he
        · rw [← grantRoles_eq] at he
          obtain ⟨i, -, rfl⟩ := (mem_grantRoles _ _ e).1 he
          rfl
    cases hid : u.Id with
    | none =>
      refine ⟨u, .save (outgoing env u), (env.save (outgoing env u)).Id,
        passwordCommand { outgoing env u with Id := (env.save (outgoing env u)).Id },
        rfl, Or.inl ⟨hid, rfl, rfl⟩, ?_, ?_, ?_, ?_, hscope⟩
      · intro p hp
        simp [passwordCommand, hpw, hp]
      · intro hp
        simp [passwordCommand, hpw, hp]
      · rw [saveUser_effects_fresh env s u hu hid, grantRoles_eq]
      · refine hstore _ _ _ ?_ ?_
        · rfl
        intro e he
        cases hp : u.Password
        · simp [passwordCommand, hpw, hp] at he
        · simp [passwordCommand, hpw, hp] at he
          subst he
          rfl
    | some k =>
      have hid' : (outgoing env u).Id = some k := by rw [outgoing_eq]; exact hid
      refine ⟨u, .update (outgoing env u), some k, passwordCommand (outgoing env u),
        rfl, Or.inr ⟨k, hid, rfl, rfl⟩, ?_, ?_, ?_, ?_, hscope⟩
      · intro p hp
        simp [passwordCommand, hpw, hp, hid']
      · intro hp
        simp [passwordCommand, hpw, hp]
      · rw [saveUser_effects_existing env s u k hu hid, grantRoles_eq]
      · refine hstore _ _ _ ?_ ?_
        · rfl
        intro e he
        cases hp : u.Password
        · simp [passwordCommand, hpw, hp] at he
        · simp [passwordCommand, hpw, hp] at he
          subst he
          rfl

/-- Witness of C13: the save of user 7 with the password "secret" completes
and leaves the scope `unloadUser` leaves. -/
theorem saveUser_effect_order_witness :
    (saveUser exampleServices editSession).error = none ∧
    (saveUser exampleServices editSession).scope = unloadUser editSession ∧
    (saveUser exampleServices editSession).effects =
      [.update { Id := some 7, Password := some "sha512:secret" },
       .update { Id := some 7, Action := some "Password",
                 NewPassword := some "sha512:secret" },
       roleGrant (some 7) 2, .loadUsers] :=
  ⟨by decide,
    match saveUser_effect_order exampleServices editSession (by decide) with
    | ⟨_, _, _, _, _, _, _, _, _, _, hs⟩ => hs,
    by decide⟩

end UserDetail
